import Mathlib

/-! # go-namecheap-sdk: request envelope and error convention

A shallow embedding of `client.go` (configuration, request builder, form
encoding) and `namecheap/domains_check.go` (the `Check` command and its
envelope evaluation), together with the parts of Go's `net/url` package that
`Client.encodeBody` and the tests call (`Values.Set`, `Values.Encode`,
`QueryEscape`, `ParseQuery`, `QueryUnescape`).

Go strings are byte sequences, so a string is a list of bytes here.
-/

namespace Namecheap

/-! ## Go strings -/

/-- A Go `byte`. -/
abbrev Byte := Fin 256

/-- A Go `string`: an immutable sequence of bytes (not necessarily UTF-8). -/
abbrev GoString := List Byte

/-- The byte of an ASCII character of a source literal. -/
def byteOf (c : Char) : Byte := Fin.ofNat c.toNat

/-- A string literal of the source (all literals of the source are ASCII). -/
def lit (s : String) : GoString := s.toList.map byteOf

/-! ## Errors and results -/

/-- Go `error` values. The constructors name the places that build them; the
text is kept where the program fixes it byte for byte. -/
inductive GoError where
  /-- An error whose `Error()` text is exactly `text` (`fmt.Errorf` with `%s` verbs only). -/
  | errorString (text : GoString)
  /-- The error of `url.EscapeError(s)`: a malformed percent escape. -/
  | escapeError (s : GoString)
  /-- The error of `parseQuery` on a segment holding a semicolon. -/
  | invalidSemicolon
  /-- The error of `NewClient` at client.go:44,
  `"ERROR: missing configuration - username=%q, apiuser=%q, token=%d"`. -/
  | missingConfiguration (username apiuser : GoString) (tokenLen : Nat)
  /-- The error of `NewClient` at client.go:60, `"ERROR: failed to get user IP: %v"`. -/
  | failedToGetUserIP (cause : GoError)
  /-- The error of `NewRequest` at client.go:99, `"Error parsing base URL: %s"`. -/
  | parsingBaseURL (cause : GoError)
  /-- The error of `NewRequest` at client.go:116, `"Error creating request: %s"`. -/
  | creatingRequest (cause : GoError)
  /-- An error reported by a collaborator outside the program (transport, reader,
  URL parser, XML decoder). -/
  | library (tag : GoString)
  deriving DecidableEq, Repr

/-- The outcome of running a Go function: it returns a value, or the
goroutine panics (nil dereference, assignment to an entry of a nil map). -/
inductive Run (α : Type) where
  | returned (value : α)
  | panicked (reason : GoString)
  deriving DecidableEq, Repr

/-! ## net/url: escaping -/

/-- The function `shouldEscape(c, encodeQueryComponent)` of net/url: letters,
digits and `-`, `_`, `.`, `~` are kept, every other byte is escaped. -/
def shouldEscape (c : Byte) : Bool :=
  if ('a'.toNat ≤ c.val ∧ c.val ≤ 'z'.toNat) ∨ ('A'.toNat ≤ c.val ∧ c.val ≤ 'Z'.toNat)
      ∨ ('0'.toNat ≤ c.val ∧ c.val ≤ '9'.toNat) then false
  else if c = byteOf '-' ∨ c = byteOf '_' ∨ c = byteOf '.' ∨ c = byteOf '~' then false
  else true

/-- The table `upperhex` of net/url. -/
def upperhex : GoString := lit "0123456789ABCDEF"

/-- The first counting loop of `escape`: `(spaceCount, hexCount)`. -/
def escapeCount : GoString → Nat × Nat
  | [] => (0, 0)
  | c :: s =>
    let r := escapeCount s
    if shouldEscape c then
      if c = byteOf ' ' then (r.1 + 1, r.2) else (r.1, r.2 + 1)
    else r

/-- What the second loop of `escape` writes for one byte in query-component
mode: `+` for a space, `%XX` for an escaped byte, the byte itself otherwise. -/
def escapeByte (c : Byte) : GoString :=
  if c = byteOf ' ' then [byteOf '+']
  else if shouldEscape c then
    [byteOf '%', upperhex.getD (c.val >>> 4) 0, upperhex.getD (c.val &&& 15) 0]
  else [c]

/-- The second loop of `escape`. -/
def escapeWrite : GoString → GoString
  | [] => []
  | c :: s => escapeByte c ++ escapeWrite s

/-- The function `url.QueryEscape(s)`, that is `escape(s, encodeQueryComponent)`. -/
def QueryEscape (s : GoString) : GoString :=
  let r := escapeCount s
  if r.1 = 0 ∧ r.2 = 0 then s else escapeWrite s

/-- The function `ishex` of net/url. -/
def ishex (c : Byte) : Bool :=
  if '0'.toNat ≤ c.val ∧ c.val ≤ '9'.toNat then true
  else if 'a'.toNat ≤ c.val ∧ c.val ≤ 'f'.toNat then true
  else if 'A'.toNat ≤ c.val ∧ c.val ≤ 'F'.toNat then true
  else false

/-- The function `unhex` of net/url. -/
def unhex (c : Byte) : Nat :=
  if '0'.toNat ≤ c.val ∧ c.val ≤ '9'.toNat then c.val - '0'.toNat
  else if 'a'.toNat ≤ c.val ∧ c.val ≤ 'f'.toNat then c.val - 'a'.toNat + 10
  else if 'A'.toNat ≤ c.val ∧ c.val ≤ 'F'.toNat then c.val - 'A'.toNat + 10
  else 0

/-- The byte `unhex(a)<<4 | unhex(b)` (byte arithmetic, so modulo 256). -/
def unhexPair (a b : Byte) : Byte := Fin.ofNat (((unhex a <<< 4) % 256) ||| unhex b)

/-- The first loop of `unescape` in query-component mode: it checks every
percent escape and returns `(n, hasPlus)`, or the `EscapeError` of the first
malformed escape (at most three bytes from the `%` on). -/
def unescapeScan : GoString → Except GoError (Nat × Bool)
  | [] => .ok (0, false)
  | c :: s =>
    if c = byteOf '%' then
      match s with
      | h1 :: h2 :: rest =>
        if ishex h1 && ishex h2 then
          match unescapeScan rest with
          | .ok r => .ok (r.1 + 1, r.2)
          | .error e => .error e
        else .error (.escapeError ((c :: s).take 3))
      | _ => .error (.escapeError ((c :: s).take 3))
    else if c = byteOf '+' then
      match unescapeScan s with
      | .ok r => .ok (r.1, true)
      | .error e => .error e
    else unescapeScan s

/-- The second loop of `unescape` in query-component mode, run only on input
that passed `unescapeScan` (a `%` is then followed by two hex digits). -/
def unescapeWrite : GoString → GoString
  | [] => []
  | c :: s =>
    if c = byteOf '%' then
      match s with
      | h1 :: h2 :: rest => unhexPair h1 h2 :: unescapeWrite rest
      | _ => []
    else if c = byteOf '+' then byteOf ' ' :: unescapeWrite s
    else c :: unescapeWrite s

/-- The function `url.QueryUnescape(s)`, that is `unescape(s, encodeQueryComponent)`. -/
def QueryUnescape (s : GoString) : Except GoError GoString :=
  match unescapeScan s with
  | .error e => .error e
  | .ok r => if r.1 = 0 ∧ r.2 = false then .ok s else .ok (unescapeWrite s)


/-! ## net/url: form values -/

/-- The type `url.Values`, a `map[string][]string`. -/
abbrev Values := AList (fun _ : GoString => List GoString)

/-- The method `Values.Set`: `v[key] = []string{value}`. -/
def Values.Set (v : Values) (key value : GoString) : Values := v.insert key [value]

/-- The method `Values.Get`: the first value of `key`, or `""`. -/
def Values.Get (v : Values) (key : GoString) : GoString :=
  match v.lookup key with
  | some (x :: _) => x
  | _ => []

/-- The statement `m[key] = append(m[key], value)` of `parseQuery`. -/
def Values.append (m : Values) (key value : GoString) : Values :=
  m.insert key ((m.lookup key).getD [] ++ [value])

/-- The call `slices.Sort(keys)`: strings ordered bytewise. -/
def sortStrings (keys : List GoString) : List GoString :=
  List.insertionSort (fun a b : GoString => a ≤ b) keys

/-- The inner loop of `Values.Encode` over the values `vs` of one key. -/
def encodeValues (keyEscaped : GoString) : List GoString → GoString → GoString
  | [], buf => buf
  | v :: vs, buf =>
    encodeValues keyEscaped vs
      ((if buf.length > 0 then buf ++ [byteOf '&'] else buf)
        ++ keyEscaped ++ [byteOf '='] ++ QueryEscape v)

/-- The outer loop of `Values.Encode` over the sorted keys. -/
def encodeKeys (v : Values) : List GoString → GoString → GoString
  | [], buf => buf
  | k :: ks, buf => encodeKeys v ks (encodeValues (QueryEscape k) ((v.lookup k).getD []) buf)

/-- The method `Values.Encode`: `key=value` pairs joined by `&`, sorted by key. -/
def Values.Encode (v : Values) : GoString :=
  if v.entries.length = 0 then [] else encodeKeys v (sortStrings v.keys) []

/-- The call `strings.Cut(s, sep)` for a one-byte separator: `(before, after, found)`. -/
def Cut (s : GoString) (sep : Byte) : GoString × GoString × Bool :=
  match s with
  | [] => ([], [], false)
  | c :: rest =>
    if c = sep then ([], rest, true)
    else
      let r := Cut rest sep
      (c :: r.1, r.2.1, r.2.2)

/-- The loop of `parseQuery(m, query)`; every iteration removes at least one
byte of a non-empty `query`, and `fuel` bounds the iterations. The result is
`none` when the fuel ran out before the query was consumed. -/
def parseQuery : Nat → Values → Option GoError → GoString → Option (Values × Option GoError)
  | 0, m, err, query => if query = [] then some (m, err) else none
  | fuel + 1, m, err, query =>
    if query = [] then some (m, err)
    else
      let c := Cut query (byteOf '&')
      let key := c.1
      let query := c.2.1
      if key.contains (byteOf ';') then parseQuery fuel m (some .invalidSemicolon) query
      else if key = [] then parseQuery fuel m err query
      else
        let kv := Cut key (byteOf '=')
        match QueryUnescape kv.1 with
        | .error err1 => parseQuery fuel m (if err = none then some err1 else err) query
        | .ok key =>
          match QueryUnescape kv.2.1 with
          | .error err1 => parseQuery fuel m (if err = none then some err1 else err) query
          | .ok value => parseQuery fuel (m.append key value) err query

/-- The function `url.ParseQuery(query)`: the values and the first error. -/
def ParseQuery (query : GoString) : Option (Values × Option GoError) :=
  parseQuery query.length ∅ none query

/-! ## client.go -/

/-- A non-nil `map[string]string`. -/
abbrev StrMap := AList (fun _ : GoString => GoString)

/-- A `map[string]string` value: `none` is the nil map. -/
abbrev GoMap := Option StrMap

/-- The entries a `range` over the map visits (none for a nil map). -/
def GoMap.entries (m : GoMap) : List (Sigma fun _ : GoString => GoString) :=
  match m with
  | none => []
  | some a => a.entries

/-- The lookup `m[key]` with its presence flag. -/
def GoMap.lookup (m : GoMap) (key : GoString) : Option GoString :=
  match m with
  | none => none
  | some a => a.lookup key

/-- The assignment `m[key] = value`; it panics on a nil map. -/
def GoMap.assign (m : GoMap) (key value : GoString) : Run GoMap :=
  match m with
  | none => .panicked (lit "assignment to entry in nil map")
  | some a => .returned (some (a.insert key value))

/-- The constant `namecheapApiUrl`. -/
def namecheapApiUrl : GoString := lit "https://api.namecheap.com/xml.response"

/-- The constant `sandboxApiUrl`. -/
def sandboxApiUrl : GoString := lit "https://api.sandbox.namecheap.com/xml.response"

/-- The constant `getUserIPUrl`. -/
def getUserIPUrl : GoString := lit "https://dynamicdns.park-your-domain.com/getip"

/-- The struct `Client`. The field `Http` is a handle to the transport; its
behaviour is the `Env` the functions below take. -/
structure Client where
  Token : GoString
  ApiUser : GoString
  Username : GoString
  URL : GoString
  Ip : GoString
  deriving DecidableEq, Repr

/-- An `*http.Request` as `NewRequest` builds it. -/
structure Request where
  method : GoString
  url : GoString
  body : GoString
  header : List (GoString × GoString)
  deriving DecidableEq, Repr

/-- An `io.Reader` read to its end: the bytes it delivers and the error that
ends them (`none` for `io.EOF`). -/
abbrev Reader := GoString × Option GoError

/-- The call `ioutil.ReadAll(r)`. -/
def ReadAll (r : Reader) : Except GoError GoString :=
  match r.2 with
  | some err => .error err
  | none => .ok r.1

/-- The collaborators outside the program: the network and the library
functions whose results the program only passes on. -/
structure Env (Obj : Type) where
  /-- The variable `debug`, `os.Getenv("DEBUG") != ""`. -/
  debug : Bool
  /-- The call `c.Http.Get(url)`: a transport error, or the body of the response. -/
  httpGet : GoString → Except GoError Reader
  /-- The call `url.Parse(s)` followed by `u.String()`. -/
  urlParse : GoString → Except GoError GoString
  /-- The check `http.NewRequest(method, url, body)` makes of method and URL. -/
  httpNewRequest : GoString → GoString → Option GoError
  /-- The call `Http.Do(req)`: a transport error, or the body of the response. -/
  httpDo : Request → Except GoError Reader
  /-- The call `xml.NewDecoder(reader).Decode(&obj)`: the object as the
  decoder leaves it and the error it returns. -/
  xmlDecode : Reader → Obj → Obj × Option GoError

/-- The method `Client.getUserIP` (client.go:152); the debug print is not modelled. -/
def getUserIP {Obj : Type} (env : Env Obj) : Except GoError GoString :=
  match env.httpGet getUserIPUrl with
  | .error err => .error err
  | .ok body =>
    match ReadAll body with
    | .error err => .error err
    | .ok ip => .ok ip

/-- The function `NewClient` (client.go:42): `(nil, err)` is `.error err`,
`(&client, nil)` is `.ok client`. -/
def NewClient {Obj : Type} (env : Env Obj) (username apiuser token ip : GoString)
    (useSandbox : Bool) : Except GoError Client :=
  if username = [] ∨ apiuser = [] ∨ token = [] then
    .error (.missingConfiguration username apiuser token.length)
  else
    let client : Client :=
      { Token := token, ApiUser := apiuser, Username := username, Ip := ip,
        URL := namecheapApiUrl }
    let withIp : Except GoError Client :=
      if client.Ip = [] then
        match getUserIP env with
        | .error err => .error (.failedToGetUserIP err)
        | .ok ip => .ok { client with Ip := ip }
      else .ok client
    match withIp with
    | .error err => .error err
    | .ok client => if useSandbox then .ok { client with URL := sandboxApiUrl } else .ok client

/-- The method `Client.encodeBody` (client.go:144). -/
def encodeBody (body : GoMap) : GoString :=
  let data : Values := (GoMap.entries body).foldl (fun data kv => Values.Set data kv.1 kv.2) ∅
  Values.Encode data

/-- The four assignments of `NewRequest` (client.go:102-105). -/
def setCredentials (c : Client) (body : GoMap) : Run GoMap :=
  match GoMap.assign body (lit "Username") c.Username with
  | .panicked r => .panicked r
  | .returned body =>
    match GoMap.assign body (lit "ApiKey") c.Token with
    | .panicked r => .panicked r
    | .returned body =>
      match GoMap.assign body (lit "ApiUser") c.ApiUser with
      | .panicked r => .panicked r
      | .returned body => GoMap.assign body (lit "ClientIp") c.Ip

/-- The method `Client.NewRequest` (client.go:95). The test of `err` at line
109 reads the `err` of `url.Parse`, which is nil there. -/
def NewRequest {Obj : Type} (env : Env Obj) (c : Client) (body : GoMap) :
    Run (Except GoError Request) :=
  match env.urlParse c.URL with
  | .error err => .returned (.error (.parsingBaseURL err))
  | .ok u =>
    match setCredentials c body with
    | .panicked r => .panicked r
    | .returned body =>
      let rBody := encodeBody body
      match env.httpNewRequest (lit "POST") u with
      | some err => .returned (.error (.creatingRequest err))
      | none =>
        .returned (.ok
          { method := lit "POST", url := u, body := rBody,
            header := [(lit "Content-Type", lit "application/x-www-form-urlencoded"),
                       (lit "Content-Length", lit (Nat.repr rBody.length))] })

/-- The method `Client.decode` (client.go:126). In debug mode the stream is
read to its end first (a read error is returned as it is), printed, and the
decoder gets a fresh reader over the same bytes. -/
def decode {Obj : Type} (env : Env Obj) (reader : Reader) (obj : Obj) : Obj × Option GoError :=
  if env.debug then
    match ReadAll reader with
    | .error err => (obj, some err)
    | .ok bs => env.xmlDecode (bs, none) obj
  else env.xmlDecode reader obj

/-! ## namecheap/domains_check.go -/

/-- A Go `float64`, as its 64-bit pattern. -/
abbrev Float64 := Fin 18446744073709551616

/-- One element of `DomainsCheckResponse.Errors`. -/
structure ApiError where
  Message : Option GoString
  Number : Option GoString
  deriving DecidableEq, Repr

/-- The struct `DomainCheckResult`; a nil pointer is `none`. -/
structure DomainCheckResult where
  Domain : Option GoString
  IsAvailable : Option Bool
  IsPremiumName : Option Bool
  PremiumRegistrationPrice : Option Float64
  PremiumRenewalPrice : Option Float64
  PremiumRestorePrice : Option Float64
  PremiumTransferPrice : Option Float64
  IcannFee : Option Float64
  EapFee : Option Float64
  deriving DecidableEq, Repr

/-- The struct `DomainsCheckCommandResponse`. -/
structure DomainsCheckCommandResponse where
  DomainCheckResult : Option DomainCheckResult
  deriving DecidableEq, Repr

/-- The struct `DomainsCheckResponse`; `XMLName` is `(Space, Local)`. -/
structure DomainsCheckResponse where
  XMLName : Option (GoString × GoString)
  Errors : Option (List ApiError)
  CommandResponse : Option DomainsCheckCommandResponse
  deriving DecidableEq, Repr

/-- The zero value of `var response DomainsCheckResponse`. -/
def DomainsCheckResponse.zero : DomainsCheckResponse :=
  { XMLName := none, Errors := none, CommandResponse := none }

/-- What the transport has been handed so far. -/
structure World where
  sent : List Request
  deriving DecidableEq, Repr

/-- The shape of `client.DoXML(params, &response)` as `Check` sees it: the
returned error and the response object as the call leaves it, threaded
through the world; the `*http.Response` result is dropped by `Check`. -/
abbrev DoXMLFn :=
  GoMap → DomainsCheckResponse → World → Run ((Option GoError × DomainsCheckResponse) × World)

/-- The map literal of `Check` (domains_check.go:36-39). -/
def checkParams (domain : GoString) : GoMap :=
  some (((∅ : StrMap).insert (lit "Command") (lit "namecheap.domains.check")).insert
    (lit "DomainList") domain)

/-- The method `DomainsService.Check` (domains_check.go:33). Its result is
`(payload, err)`; dereferencing a nil `Message` or `Number` panics. -/
def Check (DoXML : DoXMLFn) (domain : GoString) (w : World) :
    Run ((Option DomainsCheckCommandResponse × Option GoError) × World) :=
  let response := DomainsCheckResponse.zero
  let params := checkParams domain
  match DoXML params response w with
  | .panicked r => .panicked r
  | .returned ((err, response), w) =>
    match err with
    | some e => .returned ((none, some e), w)
    | none =>
      match response.Errors with
      | some (apiErr :: _) =>
        match apiErr.Message with
        | none => .panicked (lit "invalid memory address or nil pointer dereference")
        | some message =>
          match apiErr.Number with
          | none => .panicked (lit "invalid memory address or nil pointer dereference")
          | some number =>
            .returned ((none, some (.errorString (message ++ lit " (" ++ number ++ lit ")"))), w)
      | _ => .returned ((response.CommandResponse, none), w)

/-- Modelled from the spec: `Client.DoXML` of the namecheap package is not
among the sources. Following the control flow of the spec (request builder,
then transport, then response decoder, each layer returning on its first
failure), it builds the request with `NewRequest`, hands it to the transport
and decodes the body into the response object. -/
def DoXML (env : Env DomainsCheckResponse) (c : Client) : DoXMLFn :=
  fun params obj w =>
    match NewRequest env c params with
    | .panicked r => .panicked r
    | .returned (.error err) => .returned ((some err, obj), w)
    | .returned (.ok req) =>
      let w := { w with sent := w.sent ++ [req] }
      match env.httpDo req with
      | .error err => .returned ((some err, obj), w)
      | .ok body =>
        let r := decode env body obj
        .returned ((r.2, r.1), w)

/-! ## Vocabulary of the proofs -/

/-- One pair as `Values.Encode` writes it: `QueryEscape(k) = QueryEscape(v)`. -/
def pairText (p : GoString × GoString) : GoString :=
  QueryEscape p.1 ++ byteOf '=' :: QueryEscape p.2

/-- The pairs written after the first one, each behind an `&`. -/
def pairsTail : List (GoString × GoString) → GoString
  | [] => []
  | p :: ps => byteOf '&' :: (pairText p ++ pairsTail ps)

/-- The text of a list of pairs: the pairs joined by `&`. -/
def pairsText : List (GoString × GoString) → GoString
  | [] => []
  | p :: ps => pairText p ++ pairsTail ps

/-- The buffer of `Values.Encode` after writing the pairs `ps` behind `buf`. -/
def joinBuf (buf : GoString) (ps : List (GoString × GoString)) : GoString :=
  if buf = [] then pairsText ps else buf ++ pairsTail ps

/-- The pairs `Values.Encode` writes for the keys `keys`, in order. -/
def pairsOf (v : Values) (keys : List GoString) : List (GoString × GoString) :=
  keys.flatMap (fun k => ((v.lookup k).getD []).map (fun x => (k, x)))

/-- The values `parseQuery` holds after appending the pairs `ps` in order. -/
def appendAll (m : Values) : List (GoString × GoString) → Values
  | [] => m
  | p :: ps => appendAll (m.append p.1 p.2) ps

/-! ## Sample inputs -/

/-- An environment in which every collaborator succeeds: the IP service
answers `203.0.113.7`, URLs parse to themselves, the transport answers with
an empty body and the decoder leaves the object as it is. -/
def sampleEnv : Env DomainsCheckResponse :=
  { debug := false
    httpGet := fun _ => .ok (lit "203.0.113.7", none)
    urlParse := fun s => .ok s
    httpNewRequest := fun _ _ => none
    httpDo := fun _ => .ok ([], none)
    xmlDecode := fun _ obj => (obj, none) }

/-- An environment whose IP service cannot be reached. -/
def offlineEnv : Env DomainsCheckResponse :=
  { sampleEnv with httpGet := fun _ => .error (.library (lit "connection refused")) }

/-- A client as `NewClient` builds it for the production endpoint. -/
def sampleClient : Client :=
  { Token := lit "tok", ApiUser := lit "apiuser", Username := lit "user",
    URL := namecheapApiUrl, Ip := lit "10.0.0.1" }

/-- A parameter map that tries to set an identity field itself. -/
def spoofParams : GoMap :=
  some (((∅ : StrMap).insert (lit "Command") (lit "a&b=c d")).insert
    (lit "Username") (lit "mallory"))

/-- The request `NewRequest` builds for `sampleClient` and `spoofParams`. -/
def spoofRequest : Request :=
  { method := lit "POST"
    url := namecheapApiUrl
    body := lit "ApiKey=tok&ApiUser=apiuser&ClientIp=10.0.0.1&Command=a%26b%3Dc+d&Username=user"
    header := [(lit "Content-Type", lit "application/x-www-form-urlencoded"),
               (lit "Content-Length", lit "78")] }

/-- The request `NewRequest` builds for `sampleClient` and the parameters of
a check of `example.com`. -/
def checkRequest : Request :=
  { method := lit "POST"
    url := namecheapApiUrl
    body := lit "ApiKey=tok&ApiUser=apiuser&ClientIp=10.0.0.1&Command=namecheap.domains.check"
      ++ lit "&DomainList=example.com&Username=user"
    header := [(lit "Content-Type", lit "application/x-www-form-urlencoded"),
               (lit "Content-Length", lit "113")] }

/-- The payload of the premium response of the tests (prices left out). -/
def samplePayload : DomainsCheckCommandResponse :=
  { DomainCheckResult := some
      { Domain := some (lit "example.com"), IsAvailable := some true, IsPremiumName := some true,
        PremiumRegistrationPrice := none, PremiumRenewalPrice := none,
        PremiumRestorePrice := none, PremiumTransferPrice := none, IcannFee := none,
        EapFee := none } }

/-- A decoded response with two errors and a populated payload. -/
def failedResponse : DomainsCheckResponse :=
  { XMLName := some ([], lit "ApiResponse")
    Errors := some [{ Message := some (lit "Domain name not found"), Number := some (lit "2019166") },
                    { Message := some (lit "Second"), Number := none }]
    CommandResponse := some samplePayload }

/-- A decoded response with an empty `Errors` element and a payload. -/
def okResponse : DomainsCheckResponse :=
  { XMLName := some ([], lit "ApiResponse"), Errors := some [], CommandResponse := some samplePayload }

/-- A decoded response whose first `Error` element has no `Number` attribute. -/
def numberlessResponse : DomainsCheckResponse :=
  { XMLName := some ([], lit "ApiResponse")
    Errors := some [{ Message := some (lit "Unknown failure"), Number := none }]
    CommandResponse := none }

/-- A request layer that reports no error and leaves `response` decoded. -/
def answering (response : DomainsCheckResponse) : DoXMLFn :=
  fun _ _ w => .returned ((none, response), w)

/-- A request layer that reports `err` after filling the object with `response`. -/
def failing (err : GoError) (response : DomainsCheckResponse) : DoXMLFn :=
  fun _ _ w => .returned ((some err, response), w)

/-! ## Facts about single bytes -/

theorem byte_forall (P : Byte → Prop) (h : ∀ n : Nat, n < 256 → P (Fin.ofNat n)) : ∀ c, P c := by
  intro c
  have hc : (Fin.ofNat c.val : Byte) = c := by
    apply Fin.ext
    simp [Fin.ofNat, Nat.mod_eq_of_lt c.isLt]
  rw [← hc]
  exact h c.val c.isLt

theorem hex_roundtrip : ∀ c : Byte,
    ishex (upperhex.getD (c.val >>> 4) 0) = true ∧ ishex (upperhex.getD (c.val &&& 15) 0) = true
      ∧ unhexPair (upperhex.getD (c.val >>> 4) 0) (upperhex.getD (c.val &&& 15) 0) = c := by
  apply byte_forall
  intro n hn
  interval_cases n <;> decide

theorem kept_byte_plain : ∀ c : Byte, shouldEscape c = false →
    c ≠ byteOf '%' ∧ c ≠ byteOf '+' ∧ c ≠ byteOf '&' ∧ c ≠ byteOf '=' ∧ c ≠ byteOf ';'
      ∧ c ≠ byteOf ' ' := by
  apply byte_forall
  intro n hn
  interval_cases n <;> decide

theorem hex_digits_clean : ∀ c : Byte,
    (upperhex.getD (c.val >>> 4) 0 ≠ byteOf '&' ∧ upperhex.getD (c.val >>> 4) 0 ≠ byteOf '='
      ∧ upperhex.getD (c.val >>> 4) 0 ≠ byteOf ';')
    ∧ (upperhex.getD (c.val &&& 15) 0 ≠ byteOf '&' ∧ upperhex.getD (c.val &&& 15) 0 ≠ byteOf '='
      ∧ upperhex.getD (c.val &&& 15) 0 ≠ byteOf ';') := by
  apply byte_forall
  intro n hn
  interval_cases n <;> decide

theorem escapeByte_clean (c x : Byte) (hx : x ∈ escapeByte c) :
    x ≠ byteOf '&' ∧ x ≠ byteOf '=' ∧ x ≠ byteOf ';' := by
  unfold escapeByte at hx
  split at hx
  · simp only [List.mem_singleton] at hx
    subst hx
    decide
  · split at hx
    · simp only [List.mem_cons, List.mem_singleton, List.not_mem_nil, or_false] at hx
      rcases hx with h | h | h
      · subst h
        decide
      · rw [h]
        exact (hex_digits_clean c).1
      · rw [h]
        exact (hex_digits_clean c).2
    · simp only [List.mem_singleton] at hx
      subst hx
      have hk := kept_byte_plain x (by simpa using ‹¬ shouldEscape x = true›)
      exact ⟨hk.2.2.1, hk.2.2.2.1, hk.2.2.2.2.1⟩

/-! ### Escaping and unescaping whole strings -/

theorem escapeByte_kept (c : Byte) (h : shouldEscape c = false) : escapeByte c = [c] := by
  have hk := kept_byte_plain c h
  simp [escapeByte, h, hk.2.2.2.2.2]

theorem escapeWrite_of_count_zero (s : GoString)
    (h : (escapeCount s).1 = 0 ∧ (escapeCount s).2 = 0) : escapeWrite s = s := by
  induction s with
  | nil => rfl
  | cons c s ih =>
    by_cases hc : shouldEscape c = true
    · exfalso
      rw [escapeCount.eq_2, if_pos hc] at h
      by_cases hsp : c = byteOf ' '
      · rw [if_pos hsp] at h
        simp at h
      · rw [if_neg hsp] at h
        simp at h
    · have hc2 : shouldEscape c = false := by simpa using hc
      rw [escapeCount.eq_2, if_neg hc] at h
      rw [escapeWrite, escapeByte_kept c hc2, ih h]
      rfl

theorem QueryEscape_eq (s : GoString) : QueryEscape s = escapeWrite s := by
  unfold QueryEscape
  by_cases h : (escapeCount s).1 = 0 ∧ (escapeCount s).2 = 0
  · simp [h, escapeWrite_of_count_zero s h]
  · simp [h]

theorem escapeWrite_clean (s : GoString) (x : Byte) (hx : x ∈ escapeWrite s) :
    x ≠ byteOf '&' ∧ x ≠ byteOf '=' ∧ x ≠ byteOf ';' := by
  induction s with
  | nil => simp [escapeWrite] at hx
  | cons c s ih =>
    simp only [escapeWrite, List.mem_append] at hx
    rcases hx with h | h
    · exact escapeByte_clean c x h
    · exact ih h

theorem QueryEscape_clean (s : GoString) (x : Byte) (hx : x ∈ QueryEscape s) :
    x ≠ byteOf '&' ∧ x ≠ byteOf '=' ∧ x ≠ byteOf ';' := by
  rw [QueryEscape_eq] at hx
  exact escapeWrite_clean s x hx

theorem escapeByte_space : escapeByte (byteOf ' ') = [byteOf '+'] := by decide

theorem escapeByte_hex (c : Byte) (hsp : c ≠ byteOf ' ') (hc : shouldEscape c = true) :
    escapeByte c
      = [byteOf '%', upperhex.getD (c.val >>> 4) 0, upperhex.getD (c.val &&& 15) 0] := by
  simp only [escapeByte, if_neg hsp, if_pos hc]

theorem unescapeScan_pct (h1 h2 : Byte) (rest : GoString) (n : Nat) (p : Bool)
    (hh1 : ishex h1 = true) (hh2 : ishex h2 = true) (h : unescapeScan rest = .ok (n, p)) :
    unescapeScan (byteOf '%' :: h1 :: h2 :: rest) = .ok (n + 1, p) := by
  rw [unescapeScan.eq_2]
  simp [hh1, hh2, h]

theorem unescapeScan_plus (s : GoString) (n : Nat) (p : Bool)
    (h : unescapeScan s = .ok (n, p)) : unescapeScan (byteOf '+' :: s) = .ok (n, true) := by
  have h1 : byteOf '+' ≠ byteOf '%' := by decide
  rw [unescapeScan.eq_def]
  simp only [if_neg h1, if_true, h]

theorem unescapeScan_plain (c : Byte) (s : GoString) (h1 : c ≠ byteOf '%')
    (h2 : c ≠ byteOf '+') : unescapeScan (c :: s) = unescapeScan s := by
  rw [unescapeScan.eq_def]
  simp only [if_neg h1, if_neg h2]

theorem unescapeWrite_pct (h1 h2 : Byte) (rest : GoString) :
    unescapeWrite (byteOf '%' :: h1 :: h2 :: rest) = unhexPair h1 h2 :: unescapeWrite rest := by
  rw [unescapeWrite.eq_def]
  simp only [if_true]

theorem unescapeWrite_plus (s : GoString) :
    unescapeWrite (byteOf '+' :: s) = byteOf ' ' :: unescapeWrite s := by
  have h1 : byteOf '+' ≠ byteOf '%' := by decide
  rw [unescapeWrite.eq_def]
  simp only [if_neg h1, if_true]

theorem unescapeWrite_plain (c : Byte) (s : GoString) (h1 : c ≠ byteOf '%')
    (h2 : c ≠ byteOf '+') : unescapeWrite (c :: s) = c :: unescapeWrite s := by
  rw [unescapeWrite.eq_def]
  simp only [if_neg h1, if_neg h2]

theorem unescape_escapeWrite (s : GoString) :
    ∃ n p, unescapeScan (escapeWrite s) = .ok (n, p)
      ∧ ((n = 0 ∧ p = false) → escapeWrite s = s)
      ∧ unescapeWrite (escapeWrite s) = s := by
  induction s with
  | nil => exact ⟨0, false, rfl, fun _ => rfl, rfl⟩
  | cons c s ih =>
    obtain ⟨n, p, hscan, hfast, hwrite⟩ := ih
    by_cases hsp : c = byteOf ' '
    · subst hsp
      refine ⟨n, true, ?_, ?_, ?_⟩
      · rw [escapeWrite, escapeByte_space, List.singleton_append, unescapeScan_plus _ n p hscan]
      · intro h
        simp at h
      · rw [escapeWrite, escapeByte_space, List.singleton_append, unescapeWrite_plus, hwrite]
    · by_cases hc : shouldEscape c = true
      · obtain ⟨hhi, hlo, hpair⟩ := hex_roundtrip c
        refine ⟨n + 1, p, ?_, ?_, ?_⟩
        · rw [escapeWrite, escapeByte_hex c hsp hc]
          show unescapeScan (byteOf '%' :: _ :: _ :: escapeWrite s) = _
          rw [unescapeScan_pct _ _ _ n p hhi hlo hscan]
        · intro h
          simp at h
        · rw [escapeWrite, escapeByte_hex c hsp hc]
          show unescapeWrite (byteOf '%' :: _ :: _ :: escapeWrite s) = _
          rw [unescapeWrite_pct, hpair, hwrite]
      · have hc2 : shouldEscape c = false := by simpa using hc
        have hk := kept_byte_plain c hc2
        refine ⟨n, p, ?_, ?_, ?_⟩
        · rw [escapeWrite, escapeByte_kept c hc2, List.singleton_append,
            unescapeScan_plain c _ hk.1 hk.2.1, hscan]
        · intro h
          rw [escapeWrite, escapeByte_kept c hc2, hfast h]
          rfl
        · rw [escapeWrite, escapeByte_kept c hc2, List.singleton_append,
            unescapeWrite_plain c _ hk.1 hk.2.1, hwrite]

/-- Unescaping an escaped string succeeds and gives the string back. -/
theorem QueryUnescape_QueryEscape (s : GoString) : QueryUnescape (QueryEscape s) = .ok s := by
  rw [QueryEscape_eq]
  obtain ⟨n, p, hscan, hfast, hwrite⟩ := unescape_escapeWrite s
  unfold QueryUnescape
  rw [hscan]
  by_cases h : n = 0 ∧ p = false
  · simp [h, hfast h]
  · simp only [hwrite]
    split
    · rename_i h2
      exact absurd h2 h
    · rfl

/-! ### strings.Cut -/

theorem Cut_of_not_mem (s : GoString) (sep : Byte) (h : sep ∉ s) : Cut s sep = (s, [], false) := by
  induction s with
  | nil => rfl
  | cons c s ih =>
    have hc : c ≠ sep := fun e => h (by simp [e])
    have hs : sep ∉ s := fun e => h (by simp [e])
    simp [Cut, hc, ih hs]

theorem Cut_append (a b : GoString) (sep : Byte) (h : sep ∉ a) :
    Cut (a ++ sep :: b) sep = (a, b, true) := by
  induction a with
  | nil => simp [Cut]
  | cons c a ih =>
    have hc : c ≠ sep := fun e => h (by simp [e])
    have hs : sep ∉ a := fun e => h (by simp [e])
    simp [Cut, hc, ih hs]

/-! ### The text Values.Encode writes -/

theorem pairText_ne_nil (p : GoString × GoString) : pairText p ≠ [] := by
  simp [pairText]

theorem pairText_clean (p : GoString × GoString) :
    byteOf '&' ∉ pairText p ∧ byteOf ';' ∉ pairText p := by
  have hamp : byteOf '=' ≠ byteOf '&' := by decide
  have hsemi : byteOf '=' ≠ byteOf ';' := by decide
  constructor
  · intro h
    simp only [pairText, List.mem_append, List.mem_cons] at h
    rcases h with h | h | h
    · exact (QueryEscape_clean _ _ h).1 rfl
    · exact hamp h.symm
    · exact (QueryEscape_clean _ _ h).1 rfl
  · intro h
    simp only [pairText, List.mem_append, List.mem_cons] at h
    rcases h with h | h | h
    · exact (QueryEscape_clean _ _ h).2.2 rfl
    · exact hsemi h.symm
    · exact (QueryEscape_clean _ _ h).2.2 rfl

theorem Cut_pairText (p : GoString × GoString) :
    Cut (pairText p) (byteOf '=') = (QueryEscape p.1, QueryEscape p.2, true) := by
  apply Cut_append
  intro h
  exact (QueryEscape_clean _ _ h).2.1 rfl

theorem pairsTail_append (ps qs : List (GoString × GoString)) :
    pairsTail (ps ++ qs) = pairsTail ps ++ pairsTail qs := by
  induction ps with
  | nil => rfl
  | cons p ps ih => simp [pairsTail, ih]

theorem pairsText_ne_nil (p : GoString × GoString) (ps : List (GoString × GoString)) :
    pairsText (p :: ps) ≠ [] := by
  simp [pairsText, pairText]

theorem joinBuf_nil (buf : GoString) : joinBuf buf [] = buf := by
  unfold joinBuf
  split
  · rename_i h
    simp [pairsText, h]
  · simp [pairsTail]

theorem joinBuf_append (buf : GoString) (ps qs : List (GoString × GoString)) :
    joinBuf (joinBuf buf ps) qs = joinBuf buf (ps ++ qs) := by
  cases ps with
  | nil => rw [joinBuf_nil, List.nil_append]
  | cons p ps =>
    by_cases hb : buf = []
    · subst hb
      have h1 : joinBuf [] (p :: ps) = pairsText (p :: ps) := by simp [joinBuf]
      have h2 : joinBuf [] (p :: ps ++ qs) = pairsText (p :: (ps ++ qs)) := by simp [joinBuf]
      rw [h1, h2]
      unfold joinBuf
      rw [if_neg (pairsText_ne_nil p ps)]
      simp [pairsText, pairsTail_append]
    · have h1 : joinBuf buf (p :: ps) = buf ++ pairsTail (p :: ps) := by simp [joinBuf, hb]
      have h2 : joinBuf buf (p :: ps ++ qs) = buf ++ pairsTail (p :: ps ++ qs) := by
        simp [joinBuf, hb]
      have h3 : buf ++ pairsTail (p :: ps) ≠ [] := by simp [hb]
      rw [h1, h2]
      unfold joinBuf
      rw [if_neg h3, pairsTail_append, List.append_assoc]

theorem joinBuf_single (buf : GoString) (p : GoString × GoString) :
    joinBuf buf [p]
      = (if buf.length > 0 then buf ++ [byteOf '&'] else buf)
          ++ QueryEscape p.1 ++ [byteOf '='] ++ QueryEscape p.2 := by
  by_cases hb : buf = []
  · subst hb
    simp [joinBuf, pairsText, pairsTail, pairText]
  · have hlen : buf.length > 0 := List.length_pos.mpr hb
    simp [joinBuf, hb, hlen, pairsTail, pairText]

theorem encodeValues_eq (k : GoString) (vs : List GoString) (buf : GoString) :
    encodeValues (QueryEscape k) vs buf = joinBuf buf (vs.map (fun x => (k, x))) := by
  induction vs generalizing buf with
  | nil => rw [encodeValues, List.map_nil, joinBuf_nil]
  | cons x vs ih =>
    rw [encodeValues, ih, ← joinBuf_single buf (k, x), joinBuf_append]
    rfl

theorem encodeKeys_eq (v : Values) (keys : List GoString) (buf : GoString) :
    encodeKeys v keys buf = joinBuf buf (pairsOf v keys) := by
  induction keys generalizing buf with
  | nil => rw [encodeKeys, pairsOf, List.flatMap_nil, joinBuf_nil]
  | cons k ks ih =>
    rw [encodeKeys, ih, encodeValues_eq, joinBuf_append]
    simp [pairsOf]

theorem Encode_eq (v : Values) : Values.Encode v = pairsText (pairsOf v (sortStrings v.keys)) := by
  unfold Values.Encode
  split
  · rename_i h
    have hk : v.keys = [] := by
      have : v.keys.length = 0 := by simpa [AList.keys, List.keys] using h
      exact List.length_eq_zero.mp this
    simp [hk, sortStrings, pairsOf, pairsText]
  · rw [encodeKeys_eq]
    simp [joinBuf]

/-! ### Parsing the text back -/

theorem parseQuery_nil (fuel : Nat) (m : Values) (err : Option GoError) :
    parseQuery fuel m err [] = some (m, err) := by
  cases fuel <;> simp [parseQuery]

theorem parseQuery_pair (fuel : Nat) (m : Values) (err : Option GoError)
    (p : GoString × GoString) (query rest : GoString) (found : Bool) (hne : query ≠ [])
    (hcut : Cut query (byteOf '&') = (pairText p, rest, found)) :
    parseQuery (fuel + 1) m err query = parseQuery fuel (m.append p.1 p.2) err rest := by
  have hsemi : (pairText p).contains (byteOf ';') = false := by
    simpa using (pairText_clean p).2
  rw [parseQuery]
  simp only [if_neg hne, hcut, hsemi, if_neg (pairText_ne_nil p), Cut_pairText,
    QueryUnescape_QueryEscape]
  simp

theorem parseQuery_pairs (ps : List (GoString × GoString)) :
    ∀ (p : GoString × GoString) (m : Values) (err : Option GoError) (fuel : Nat),
      (pairText p ++ pairsTail ps).length ≤ fuel →
      parseQuery fuel m err (pairText p ++ pairsTail ps) = some (appendAll m (p :: ps), err) := by
  induction ps with
  | nil =>
    intro p m err fuel hfuel
    cases fuel with
    | zero =>
      exfalso
      have := pairText_ne_nil p
      simp [pairsTail] at hfuel
      exact this hfuel
    | succ fuel =>
      have hne : pairText p ++ pairsTail [] ≠ [] := by simp [pairText_ne_nil p]
      have hcut : Cut (pairText p ++ pairsTail []) (byteOf '&') = (pairText p, [], false) := by
        simp only [pairsTail, List.append_nil]
        exact Cut_of_not_mem _ _ (pairText_clean p).1
      rw [parseQuery_pair fuel m err p _ [] false hne hcut, parseQuery_nil]
      rfl
  | cons q qs ih =>
    intro p m err fuel hfuel
    cases fuel with
    | zero =>
      exfalso
      simp [pairsTail] at hfuel
    | succ fuel =>
      have hne : pairText p ++ pairsTail (q :: qs) ≠ [] := by simp [pairText_ne_nil p]
      have hcut : Cut (pairText p ++ pairsTail (q :: qs)) (byteOf '&')
          = (pairText p, pairText q ++ pairsTail qs, true) := by
        simp only [pairsTail]
        exact Cut_append _ _ _ (pairText_clean p).1
      have hlen : (pairText q ++ pairsTail qs).length ≤ fuel := by
        simp only [pairsTail, List.length_append, List.length_cons] at hfuel ⊢
        omega
      rw [parseQuery_pair fuel m err p _ _ true hne hcut, ih q _ err fuel hlen]
      rfl

theorem ParseQuery_pairsText (ps : List (GoString × GoString)) :
    ParseQuery (pairsText ps) = some (appendAll ∅ ps, none) := by
  cases ps with
  | nil => rfl
  | cons p ps =>
    unfold ParseQuery
    exact parseQuery_pairs ps p ∅ none _ (le_refl _)

/-! ### The values after parsing -/

theorem lookup_append_ne (m : Values) (k key value : GoString) (h : k ≠ key) :
    (m.append key value).lookup k = m.lookup k := by
  unfold Values.append
  exact AList.lookup_insert_ne h

theorem lookup_append_self (m : Values) (key value : GoString) :
    (m.append key value).lookup key = some ((m.lookup key).getD [] ++ [value]) := by
  unfold Values.append
  exact AList.lookup_insert m

theorem lookup_appendAll_of_not_mem (ps : List (GoString × GoString)) (m : Values)
    (k : GoString) (h : k ∉ ps.map Prod.fst) : (appendAll m ps).lookup k = m.lookup k := by
  induction ps generalizing m with
  | nil => rfl
  | cons p ps ih =>
    simp only [List.map_cons, List.mem_cons, not_or] at h
    rw [appendAll, ih _ h.2, lookup_append_ne m k p.1 p.2 h.1]

theorem lookup_appendAll_of_mem (ps : List (GoString × GoString))
    (hnd : (ps.map Prod.fst).Nodup) (m : Values) (k x : GoString) (h : (k, x) ∈ ps) :
    (appendAll m ps).lookup k = some ((m.lookup k).getD [] ++ [x]) := by
  induction ps generalizing m with
  | nil => simp at h
  | cons p ps ih =>
    simp only [List.map_cons, List.nodup_cons] at hnd
    rw [appendAll]
    rcases List.mem_cons.mp h with h | h
    · subst h
      rw [lookup_appendAll_of_not_mem ps _ _ hnd.1, lookup_append_self]
    · have hk : k ≠ p.1 := by
        intro e
        apply hnd.1
        rw [← e]
        exact List.mem_map.mpr ⟨(k, x), h, rfl⟩
      rw [ih hnd.2 _ h, lookup_append_ne m k p.1 p.2 hk]

/-! ### The values encodeBody collects -/

theorem lookup_foldl_Set (l : List (Sigma fun _ : GoString => GoString)) (hl : l.NodupKeys)
    (acc : Values) (k : GoString) :
    (l.foldl (fun data kv => Values.Set data kv.1 kv.2) acc).lookup k
      = match l.dlookup k with
        | some x => some [x]
        | none => acc.lookup k := by
  induction l generalizing acc with
  | nil => rfl
  | cons e l ih =>
    obtain ⟨hnot, hl2⟩ := List.nodupKeys_cons.mp hl
    rw [List.foldl_cons, ih hl2]
    by_cases hk : k = e.1
    · subst hk
      have h1 : l.dlookup e.1 = none := List.dlookup_eq_none.mpr hnot
      have h2 : (e :: l).dlookup e.1 = some e.2 := by
        cases e
        exact List.dlookup_cons_eq _ _ _
      rw [h1, h2]
      exact AList.lookup_insert acc
    · have h2 : (e :: l).dlookup k = l.dlookup k := by
        cases e
        exact List.dlookup_cons_ne _ _ (fun h => hk h)
      rw [h2]
      cases l.dlookup k with
      | some x => rfl
      | none => exact AList.lookup_insert_ne hk

theorem lookup_collect (body : GoMap) (k : GoString) :
    ((GoMap.entries body).foldl (fun data kv => Values.Set data kv.1 kv.2)
        (∅ : Values)).lookup k
      = (GoMap.lookup body k).map (fun x => [x]) := by
  cases body with
  | none => rfl
  | some a =>
    simp only [GoMap.entries, GoMap.lookup]
    rw [lookup_foldl_Set a.entries a.nodupKeys]
    show _ = (a.entries.dlookup k).map _
    cases a.entries.dlookup k with
    | some x => rfl
    | none => rfl

theorem mem_pairsOf (v : Values) (keys : List GoString) (k x : GoString) :
    (k, x) ∈ pairsOf v keys ↔ k ∈ keys ∧ x ∈ (v.lookup k).getD [] := by
  simp only [pairsOf, List.mem_flatMap, List.mem_map, Prod.mk.injEq]
  constructor
  · rintro ⟨k2, hk2, y, hy, rfl, rfl⟩
    exact ⟨hk2, hy⟩
  · rintro ⟨hk, hx⟩
    exact ⟨k, hk, x, hx, rfl, rfl⟩

theorem pairsOf_keys (v : Values) (keys : List GoString)
    (h : ∀ k ∈ keys, ∃ x, v.lookup k = some [x]) : (pairsOf v keys).map Prod.fst = keys := by
  induction keys with
  | nil => rfl
  | cons k ks ih =>
    obtain ⟨x, hx⟩ := h k (List.mem_cons_self k ks)
    have ih2 := ih (fun k2 hk2 => h k2 (List.mem_cons_of_mem k hk2))
    simp only [pairsOf, List.flatMap_cons, List.map_append] at ih2 ⊢
    rw [ih2, hx]
    rfl

/-- The round trip of the form encoding: parsing `encodeBody(body)` back
succeeds and binds exactly the keys of `body`, each to its single value. -/
theorem encodeBody_parse (body : GoMap) :
    ∃ vals : Values, ParseQuery (encodeBody body) = some (vals, none)
      ∧ ∀ k, vals.lookup k = (GoMap.lookup body k).map (fun x => [x]) := by
  let data : Values :=
    (GoMap.entries body).foldl (fun data kv => Values.Set data kv.1 kv.2) (∅ : Values)
  have hdata : ∀ k, data.lookup k = (GoMap.lookup body k).map (fun x => [x]) :=
    lookup_collect body
  let keys := sortStrings data.keys
  have hperm : keys.Perm data.keys := List.perm_insertionSort _ _
  have hnd : keys.Nodup := hperm.nodup_iff.mpr data.keys_nodup
  have hmem : ∀ k, k ∈ keys ↔ (data.lookup k).isSome = true := by
    intro k
    rw [hperm.mem_iff, AList.lookup_isSome]
    exact AList.mem_keys.symm
  have hsingle : ∀ k ∈ keys, ∃ x, data.lookup k = some [x] := by
    intro k hk
    have h1 := (hmem k).mp hk
    rw [hdata k] at h1 ⊢
    cases hb : GoMap.lookup body k with
    | none => simp [hb] at h1
    | some x => exact ⟨x, rfl⟩
  have hkeys : (pairsOf data keys).map Prod.fst = keys := pairsOf_keys data keys hsingle
  refine ⟨appendAll ∅ (pairsOf data keys), ?_, ?_⟩
  · show ParseQuery (Values.Encode data) = _
    rw [Encode_eq, ParseQuery_pairsText]
  · intro k
    cases hb : GoMap.lookup body k with
    | none =>
      have hk : k ∉ (pairsOf data keys).map Prod.fst := by
        rw [hkeys, hmem k, hdata k, hb]
        simp
      rw [lookup_appendAll_of_not_mem _ _ _ hk]
      rfl
    | some x =>
      have hk : k ∈ keys := by
        rw [hmem k, hdata k, hb]
        rfl
      have hp : (k, x) ∈ pairsOf data keys := by
        rw [mem_pairsOf]
        refine ⟨hk, ?_⟩
        rw [hdata k, hb]
        simp
      rw [lookup_appendAll_of_mem _ (by rw [hkeys]; exact hnd) _ k x hp]
      rfl

/-! ## The request builder -/

/-- The four assignments succeed on a non-nil map and bind the credential keys. -/
theorem lookup_setCredentials (c : Client) (a : StrMap) (k : GoString) :
    ∃ body, setCredentials c (some a) = .returned body
      ∧ GoMap.lookup body k
        = if k = lit "Username" then some c.Username
          else if k = lit "ApiKey" then some c.Token
          else if k = lit "ApiUser" then some c.ApiUser
          else if k = lit "ClientIp" then some c.Ip
          else a.lookup k := by
  refine ⟨_, rfl, ?_⟩
  have h1 : lit "ClientIp" ≠ lit "Username" := by decide
  have h2 : lit "ClientIp" ≠ lit "ApiKey" := by decide
  have h3 : lit "ClientIp" ≠ lit "ApiUser" := by decide
  have h4 : lit "ApiUser" ≠ lit "Username" := by decide
  have h5 : lit "ApiUser" ≠ lit "ApiKey" := by decide
  have h6 : lit "ApiKey" ≠ lit "Username" := by decide
  show AList.lookup k _ = _
  by_cases k1 : k = lit "ClientIp"
  · subst k1
    rw [AList.lookup_insert, if_neg h1, if_neg h2, if_neg h3, if_pos rfl]
  · rw [AList.lookup_insert_ne k1]
    by_cases k2 : k = lit "ApiUser"
    · subst k2
      rw [AList.lookup_insert, if_neg h4, if_neg h5, if_pos rfl]
    · rw [AList.lookup_insert_ne k2]
      by_cases k3 : k = lit "ApiKey"
      · subst k3
        rw [AList.lookup_insert, if_neg h6, if_pos rfl]
      · rw [AList.lookup_insert_ne k3]
        by_cases k4 : k = lit "Username"
        · subst k4
          rw [AList.lookup_insert, if_pos rfl]
        · rw [AList.lookup_insert_ne k4, if_neg k4, if_neg k3, if_neg k2, if_neg k1]

/-- The body of a request `NewRequest` returns: it parses back to the
parameters with the four credential keys overwritten, and a returned request
means the map was not nil. -/
theorem NewRequest_body {Obj : Type} (env : Env Obj) (c : Client) (m : GoMap) (req : Request)
    (h : NewRequest env c m = .returned (.ok req)) :
    ∃ vals : Values, ParseQuery req.body = some (vals, none)
      ∧ ∀ k, vals.lookup k
          = if k = lit "Username" then some [c.Username]
            else if k = lit "ApiKey" then some [c.Token]
            else if k = lit "ApiUser" then some [c.ApiUser]
            else if k = lit "ClientIp" then some [c.Ip]
            else (GoMap.lookup m k).map (fun x => [x]) := by
  unfold NewRequest at h
  cases hu : env.urlParse c.URL with
  | error e => simp [hu] at h
  | ok u =>
    cases m with
    | none => simp [hu, setCredentials, GoMap.assign] at h
    | some a =>
      obtain ⟨body, hbody, -⟩ := lookup_setCredentials c a []
      rw [hu] at h
      simp only [hbody] at h
      cases hn : env.httpNewRequest (lit "POST") u with
      | some e => simp [hn] at h
      | none =>
        simp only [hn, Run.returned.injEq, Except.ok.injEq] at h
        subst h
        obtain ⟨vals, hparse, hvals⟩ := encodeBody_parse body
        refine ⟨vals, hparse, ?_⟩
        intro k
        obtain ⟨body2, hbody2, hlook⟩ := lookup_setCredentials c a k
        have hb : body2 = body := by
          rw [hbody] at hbody2
          exact (Run.returned.inj hbody2).symm
        subst hb
        rw [hvals k, hlook]
        simp only [GoMap.lookup]
        split_ifs <;> rfl

/-- C3: whenever `Client.NewRequest(m)` returns a request, its form body
parses back to a mapping whose keys are exactly the keys of `m` together with
Username, ApiKey, ApiUser and ClientIp; those four are bound to the Username,
Token, ApiUser and Ip of the client whatever `m` held under them, and every
other key keeps the single value `m` gave it. -/
theorem NewRequest_merges_credentials {Obj : Type} (env : Env Obj) (c : Client) (m : GoMap)
    (req : Request) (h : NewRequest env c m = .returned (.ok req)) :
    ∃ vals : Values, ParseQuery req.body = some (vals, none)
      ∧ ∀ k, vals.lookup k
          = if k = lit "Username" then some [c.Username]
            else if k = lit "ApiKey" then some [c.Token]
            else if k = lit "ApiUser" then some [c.ApiUser]
            else if k = lit "ClientIp" then some [c.Ip]
            else (GoMap.lookup m k).map (fun x => [x]) :=
  NewRequest_body env c m req h

/-- An instance of `NewRequest_merges_credentials`: the caller's own Username
is overwritten by the client's. -/
theorem NewRequest_merges_credentials_witness :
    NewRequest sampleEnv sampleClient spoofParams = .returned (.ok spoofRequest)
      ∧ ∃ vals : Values, ParseQuery spoofRequest.body = some (vals, none)
        ∧ ∀ k, vals.lookup k
            = if k = lit "Username" then some [sampleClient.Username]
              else if k = lit "ApiKey" then some [sampleClient.Token]
              else if k = lit "ApiUser" then some [sampleClient.ApiUser]
              else if k = lit "ClientIp" then some [sampleClient.Ip]
              else (GoMap.lookup spoofParams k).map (fun x => [x]) :=
  ⟨rfl, NewRequest_merges_credentials sampleEnv sampleClient spoofParams spoofRequest rfl⟩

/-- C4: for every `map[string]string` value `m` (nil included, any bytes in
keys and values), `url.ParseQuery(encodeBody(m))` returns without error and
the parsed values hold exactly the keys of `m`, each with the one value `m`
gives it. -/
theorem encodeBody_roundtrip (m : GoMap) :
    ∃ vals : Values, ParseQuery (encodeBody m) = some (vals, none)
      ∧ ∀ k, vals.lookup k = (GoMap.lookup m k).map (fun x => [x]) :=
  encodeBody_parse m

/-! ## The configuration resolver -/

/-- The three exits of `NewClient`. -/
theorem NewClient_cases {Obj : Type} (env : Env Obj) (username apiuser token ip : GoString)
    (useSandbox : Bool) :
    NewClient env username apiuser token ip useSandbox
      = if username = [] ∨ apiuser = [] ∨ token = [] then
          .error (.missingConfiguration username apiuser token.length)
        else if ip = [] then
          match getUserIP env with
          | .error err => .error (.failedToGetUserIP err)
          | .ok ip2 =>
            .ok { Token := token, ApiUser := apiuser, Username := username, Ip := ip2,
                  URL := if useSandbox then sandboxApiUrl else namecheapApiUrl }
        else
          .ok { Token := token, ApiUser := apiuser, Username := username, Ip := ip,
                URL := if useSandbox then sandboxApiUrl else namecheapApiUrl } := by
  unfold NewClient
  by_cases h : username = [] ∨ apiuser = [] ∨ token = []
  · rw [if_pos h, if_pos h]
  · rw [if_neg h, if_neg h]
    by_cases hip : ip = []
    · simp only [hip, if_true]
      cases getUserIP env with
      | error e => rfl
      | ok ip2 => cases useSandbox <;> rfl
    · simp only [if_neg hip]
      cases useSandbox <;> rfl

/-- C5 fails as stated: with all three credentials non-empty, an empty `ip`
and an unreachable IP service, `NewClient` returns an error. -/
theorem NewClient_fails_with_full_credentials :
    lit "user" ≠ [] ∧ lit "apiuser" ≠ [] ∧ lit "tok" ≠ []
      ∧ NewClient offlineEnv (lit "user") (lit "apiuser") (lit "tok") [] false
        = .error (.failedToGetUserIP (.library (lit "connection refused"))) :=
  ⟨by decide, by decide, by decide, rfl⟩

/-- C5 as amended: `NewClient` returns a client exactly when username,
apiuser and token are all non-empty and, if `ip` is empty, the IP-resolution
call succeeds; it returns an error exactly when one of the three is empty or
`ip` is empty and the IP-resolution call fails. -/
theorem NewClient_succeeds_iff {Obj : Type} (env : Env Obj)
    (username apiuser token ip : GoString) (useSandbox : Bool) :
    ((∃ c, NewClient env username apiuser token ip useSandbox = .ok c)
        ↔ (username ≠ [] ∧ apiuser ≠ [] ∧ token ≠ []
            ∧ (ip ≠ [] ∨ ∃ r, getUserIP env = .ok r)))
      ∧ ((∃ e, NewClient env username apiuser token ip useSandbox = .error e)
        ↔ (username = [] ∨ apiuser = [] ∨ token = []
            ∨ (ip = [] ∧ ∃ e, getUserIP env = .error e))) := by
  rw [NewClient_cases]
  by_cases h : username = [] ∨ apiuser = [] ∨ token = []
  · rw [if_pos h]
    constructor
    · constructor
      · rintro ⟨c, hc⟩
        cases hc
      · rintro ⟨h1, h2, h3, -⟩
        rcases h with h | h | h
        · exact absurd h h1
        · exact absurd h h2
        · exact absurd h h3
    · constructor
      · intro _
        rcases h with h | h | h
        · exact Or.inl h
        · exact Or.inr (Or.inl h)
        · exact Or.inr (Or.inr (Or.inl h))
      · intro _
        exact ⟨_, rfl⟩
  · rw [if_neg h]
    have h1 : username ≠ [] := fun e => h (Or.inl e)
    have h2 : apiuser ≠ [] := fun e => h (Or.inr (Or.inl e))
    have h3 : token ≠ [] := fun e => h (Or.inr (Or.inr e))
    by_cases hip : ip = []
    · rw [if_pos hip]
      cases hg : getUserIP env with
      | error e =>
        constructor
        · constructor
          · rintro ⟨c, hc⟩
            cases hc
          · rintro ⟨-, -, -, h4 | ⟨r, hr⟩⟩
            · exact absurd hip h4
            · cases hr
        · constructor
          · intro _
            exact Or.inr (Or.inr (Or.inr ⟨hip, e, rfl⟩))
          · intro _
            exact ⟨_, rfl⟩
      | ok r =>
        constructor
        · constructor
          · intro _
            exact ⟨h1, h2, h3, Or.inr ⟨r, rfl⟩⟩
          · intro _
            exact ⟨_, rfl⟩
        · constructor
          · rintro ⟨e, he⟩
            cases he
          · rintro (h4 | h4 | h4 | ⟨-, e, he⟩)
            · exact absurd h4 h1
            · exact absurd h4 h2
            · exact absurd h4 h3
            · cases he
    · rw [if_neg hip]
      constructor
      · constructor
        · intro _
          exact ⟨h1, h2, h3, Or.inl hip⟩
        · intro _
          exact ⟨_, rfl⟩
      · constructor
        · rintro ⟨e, he⟩
          cases he
        · rintro (h4 | h4 | h4 | ⟨h4, -⟩)
          · exact absurd h4 h1
          · exact absurd h4 h2
          · exact absurd h4 h3
          · exact absurd h4 hip

/-- C6: a client `NewClient` returns has the sandbox endpoint as its URL if
`useSandbox` is true and the production endpoint otherwise. -/
theorem NewClient_selects_endpoint {Obj : Type} (env : Env Obj)
    (username apiuser token ip : GoString) (useSandbox : Bool) (c : Client)
    (h : NewClient env username apiuser token ip useSandbox = .ok c) :
    c.URL = if useSandbox then lit "https://api.sandbox.namecheap.com/xml.response"
            else lit "https://api.namecheap.com/xml.response" := by
  rw [NewClient_cases] at h
  split at h
  · cases h
  · split at h
    · split at h
      · cases h
      · cases h
        rfl
    · cases h
      rfl

/-- An instance of `NewClient_selects_endpoint`: a sandbox client whose IP
is resolved by the IP service. -/
theorem NewClient_selects_endpoint_witness :
    NewClient sampleEnv (lit "user") (lit "apiuser") (lit "tok") [] true
        = .ok { Token := lit "tok", ApiUser := lit "apiuser", Username := lit "user",
                URL := sandboxApiUrl, Ip := lit "203.0.113.7" }
      ∧ sandboxApiUrl = if true = true then lit "https://api.sandbox.namecheap.com/xml.response"
            else lit "https://api.namecheap.com/xml.response" :=
  ⟨rfl, NewClient_selects_endpoint sampleEnv (lit "user") (lit "apiuser") (lit "tok") [] true
    { Token := lit "tok", ApiUser := lit "apiuser", Username := lit "user",
      URL := sandboxApiUrl, Ip := lit "203.0.113.7" } rfl⟩

/-! ## The Check command and the error convention -/

/-- C1: when the request layer reports no error and the first entry of a
non-empty `Errors` list carries a message and a number, `Check` returns a nil
payload and the error whose text is the message, a space, and the number in
parentheses, whatever the later entries and `CommandResponse` are. -/
theorem Check_reports_first_error (DoXML : DoXMLFn) (domain : GoString) (w w1 : World)
    (response : DomainsCheckResponse) (first : ApiError) (others : List ApiError)
    (message number : GoString)
    (hdo : DoXML (checkParams domain) DomainsCheckResponse.zero w
      = .returned ((none, response), w1))
    (herrors : response.Errors = some (first :: others))
    (hmessage : first.Message = some message) (hnumber : first.Number = some number) :
    Check DoXML domain w
      = .returned ((none, some (.errorString (message ++ lit " (" ++ number ++ lit ")"))), w1) := by
  unfold Check
  simp only [hdo, herrors, hmessage, hnumber]

/-- An instance of `Check_reports_first_error`: two errors and a populated
payload, reported as the first error alone. -/
theorem Check_reports_first_error_witness :
    answering failedResponse (checkParams (lit "example.com")) DomainsCheckResponse.zero ⟨[]⟩
        = .returned ((none, failedResponse), ⟨[]⟩)
      ∧ failedResponse.Errors
        = some ({ Message := some (lit "Domain name not found"),
                  Number := some (lit "2019166") }
            :: [{ Message := some (lit "Second"), Number := none }])
      ∧ Check (answering failedResponse) (lit "example.com") ⟨[]⟩
        = .returned ((none, some (.errorString
            (lit "Domain name not found" ++ lit " (" ++ lit "2019166" ++ lit ")"))), ⟨[]⟩) :=
  ⟨rfl, rfl,
    Check_reports_first_error (answering failedResponse) (lit "example.com") ⟨[]⟩ ⟨[]⟩
      failedResponse
      { Message := some (lit "Domain name not found"), Number := some (lit "2019166") }
      [{ Message := some (lit "Second"), Number := none }]
      (lit "Domain name not found") (lit "2019166") rfl rfl rfl rfl⟩

/-- C2: when the request layer reports no error and `Errors` is nil or an
empty list, `Check` returns the `CommandResponse` of the response, unchanged,
and a nil error. -/
theorem Check_returns_payload (DoXML : DoXMLFn) (domain : GoString) (w w1 : World)
    (response : DomainsCheckResponse)
    (hdo : DoXML (checkParams domain) DomainsCheckResponse.zero w
      = .returned ((none, response), w1))
    (herrors : response.Errors = none ∨ response.Errors = some []) :
    Check DoXML domain w = .returned ((response.CommandResponse, none), w1) := by
  unfold Check
  rcases herrors with h | h <;> simp only [hdo, h]

/-- An instance of `Check_returns_payload`: an empty `Errors` element. -/
theorem Check_returns_payload_witness :
    answering okResponse (checkParams (lit "example.com")) DomainsCheckResponse.zero ⟨[]⟩
        = .returned ((none, okResponse), ⟨[]⟩)
      ∧ (okResponse.Errors = none ∨ okResponse.Errors = some [])
      ∧ Check (answering okResponse) (lit "example.com") ⟨[]⟩
        = .returned ((some samplePayload, none), ⟨[]⟩) :=
  ⟨rfl, Or.inr rfl,
    Check_returns_payload (answering okResponse) (lit "example.com") ⟨[]⟩ ⟨[]⟩ okResponse rfl
      (Or.inr rfl)⟩

/-- C8: when the request layer reports an error, `Check` returns a nil
payload and that same error, whatever the response object holds. -/
theorem Check_propagates_error (DoXML : DoXMLFn) (domain : GoString) (w w1 : World)
    (response : DomainsCheckResponse) (err : GoError)
    (hdo : DoXML (checkParams domain) DomainsCheckResponse.zero w
      = .returned ((some err, response), w1)) :
    Check DoXML domain w = .returned ((none, some err), w1) := by
  unfold Check
  simp only [hdo]

/-- An instance of `Check_propagates_error`: a decode error on a response
object that already holds a payload. -/
theorem Check_propagates_error_witness :
    failing (.library (lit "unexpected EOF")) okResponse (checkParams (lit "example.com"))
        DomainsCheckResponse.zero ⟨[]⟩
        = .returned ((some (.library (lit "unexpected EOF")), okResponse), ⟨[]⟩)
      ∧ Check (failing (.library (lit "unexpected EOF")) okResponse) (lit "example.com") ⟨[]⟩
        = .returned ((none, some (.library (lit "unexpected EOF"))), ⟨[]⟩) :=
  ⟨rfl,
    Check_propagates_error (failing (.library (lit "unexpected EOF")) okResponse)
      (lit "example.com") ⟨[]⟩ ⟨[]⟩ okResponse (.library (lit "unexpected EOF")) rfl⟩

/-- C10 fails on the code: on a decoded response whose first `Error` element
has no `Number` attribute, `Check` neither returns a payload nor an error; it
panics on the nil dereference. -/
theorem Check_panics_without_number :
    Check (answering numberlessResponse) (lit "example.com") ⟨[]⟩
      = .panicked (lit "invalid memory address or nil pointer dereference") :=
  rfl

/-- The map literal of `Check` binds Command and DomainList and nothing else. -/
theorem lookup_checkParams (domain k : GoString) :
    GoMap.lookup (checkParams domain) k
      = if k = lit "Command" then some (lit "namecheap.domains.check")
        else if k = lit "DomainList" then some domain
        else none := by
  have h1 : lit "DomainList" ≠ lit "Command" := by decide
  show AList.lookup k _ = _
  by_cases k1 : k = lit "DomainList"
  · subst k1
    rw [AList.lookup_insert, if_neg h1, if_pos rfl]
  · rw [AList.lookup_insert_ne k1]
    by_cases k2 : k = lit "Command"
    · subst k2
      rw [AList.lookup_insert, if_pos rfl]
    · rw [AList.lookup_insert_ne k2, if_neg k2, if_neg k1]
      rfl

/-- C7: the parameters `Check(d)` hands to the request layer are exactly
Command = namecheap.domains.check and DomainList = d, and `Check` consults the
request layer on nothing else; run over the request layer, `Check(d)` sends
exactly one request, the one `NewRequest` builds from those parameters (or,
when the decoded first error lacks its message or number, panics after the
exchange), and the form body of that request parses back to values whose
Command is namecheap.domains.check and whose DomainList is `d`, byte for byte. -/
theorem Check_sends_command (env : Env DomainsCheckResponse) (c : Client) (d : GoString)
    (w : World) (req : Request)
    (h : NewRequest env c (checkParams d) = .returned (.ok req)) :
    (∀ k, GoMap.lookup (checkParams d) k
        = if k = lit "Command" then some (lit "namecheap.domains.check")
          else if k = lit "DomainList" then some d
          else none)
      ∧ (∀ f g : DoXMLFn,
          f (checkParams d) DomainsCheckResponse.zero w
              = g (checkParams d) DomainsCheckResponse.zero w →
            Check f d w = Check g d w)
      ∧ ((∃ r, Check (DoXML env c) d w = .returned (r, { sent := w.sent ++ [req] }))
        ∨ (∃ body response first others,
            env.httpDo req = .ok body
              ∧ decode env body DomainsCheckResponse.zero = (response, none)
              ∧ response.Errors = some (first :: others)
              ∧ (first.Message = none ∨ first.Number = none)
              ∧ Check (DoXML env c) d w
                = .panicked (lit "invalid memory address or nil pointer dereference")))
      ∧ ∃ vals : Values, ParseQuery req.body = some (vals, none)
          ∧ vals.Get (lit "Command") = lit "namecheap.domains.check"
          ∧ vals.Get (lit "DomainList") = d := by
  refine ⟨lookup_checkParams d, ?_, ?_, ?_⟩
  · intro f g hfg
    unfold Check
    simp only [hfg]
  · cases hdo : env.httpDo req with
    | error e =>
      left
      refine ⟨(none, some e), ?_⟩
      unfold Check DoXML
      simp only [h, hdo]
    | ok body =>
      cases hdec : decode env body DomainsCheckResponse.zero with
      | mk response err =>
        cases err with
        | some e =>
          left
          refine ⟨(none, some e), ?_⟩
          unfold Check DoXML
          simp only [h, hdo, hdec]
        | none =>
          cases herr : response.Errors with
          | none =>
            left
            refine ⟨(response.CommandResponse, none), ?_⟩
            unfold Check DoXML
            simp only [h, hdo, hdec, herr]
          | some errs =>
            cases errs with
            | nil =>
              left
              refine ⟨(response.CommandResponse, none), ?_⟩
              unfold Check DoXML
              simp only [h, hdo, hdec, herr]
            | cons first others =>
              cases hm : first.Message with
              | none =>
                right
                refine ⟨body, response, first, others, rfl, hdec, herr, Or.inl hm, ?_⟩
                unfold Check DoXML
                simp only [h, hdo, hdec, herr, hm]
              | some message =>
                cases hn : first.Number with
                | none =>
                  right
                  refine ⟨body, response, first, others, rfl, hdec, herr, Or.inr hn, ?_⟩
                  unfold Check DoXML
                  simp only [h, hdo, hdec, herr, hm, hn]
                | some number =>
                  left
                  refine ⟨(none, some (.errorString
                    (message ++ lit " (" ++ number ++ lit ")"))), ?_⟩
                  unfold Check DoXML
                  simp only [h, hdo, hdec, herr, hm, hn]
  · obtain ⟨vals, hparse, hvals⟩ := NewRequest_body env c (checkParams d) req h
    refine ⟨vals, hparse, ?_, ?_⟩
    · have e1 : lit "Command" ≠ lit "Username" := by decide
      have e2 : lit "Command" ≠ lit "ApiKey" := by decide
      have e3 : lit "Command" ≠ lit "ApiUser" := by decide
      have e4 : lit "Command" ≠ lit "ClientIp" := by decide
      unfold Values.Get
      rw [hvals, if_neg e1, if_neg e2, if_neg e3, if_neg e4, lookup_checkParams, if_pos rfl]
      rfl
    · have e0 : lit "DomainList" ≠ lit "Command" := by decide
      have e1 : lit "DomainList" ≠ lit "Username" := by decide
      have e2 : lit "DomainList" ≠ lit "ApiKey" := by decide
      have e3 : lit "DomainList" ≠ lit "ApiUser" := by decide
      have e4 : lit "DomainList" ≠ lit "ClientIp" := by decide
      unfold Values.Get
      rw [hvals, if_neg e1, if_neg e2, if_neg e3, if_neg e4, lookup_checkParams, if_neg e0,
        if_pos rfl]
      rfl

/-- An instance of `Check_sends_command`: a check of `example.com` over the
request layer sends the one request whose body carries the command and the
domain. -/
theorem Check_sends_command_witness :
    NewRequest sampleEnv sampleClient (checkParams (lit "example.com"))
        = .returned (.ok checkRequest)
      ∧ Check (DoXML sampleEnv sampleClient) (lit "example.com") ⟨[]⟩
        = .returned ((none, none), ⟨[checkRequest]⟩)
      ∧ ∃ vals : Values, ParseQuery checkRequest.body = some (vals, none)
          ∧ vals.Get (lit "Command") = lit "namecheap.domains.check"
          ∧ vals.Get (lit "DomainList") = lit "example.com" :=
  ⟨rfl, rfl, (Check_sends_command sampleEnv sampleClient (lit "example.com") ⟨[]⟩ checkRequest
    rfl).2.2.2⟩

end Namecheap
